import Mathlib

/-!
Verification of the interactive simplex method module (problem
transformations, dictionaries, revised dictionaries) against its
natural-language specification.

Layer 1 (`ISM` namespace) embeds the Python classes
`InteractiveLPProblem`, `InteractiveLPProblemStandardForm`,
`LPDictionary` and `LPRevisedDictionary` as records over lists and
strings, with raising code modelled as `Except String`.

Layer 2 (`Numeric` namespace) embeds the numeric content of the
explicit and revised dictionary representations over `ℚ` and proves the
representation-equivalence property.
-/

namespace ISM

/-- The general-form LP problem `InteractiveLPProblem`.  Fields mirror the
Python attributes (`_Abcx` split into `A`, `b`, `c`, `x`); `pfx` stands for
the source attribute `_prefix`.  `style`, `problem_type_pda` and
`objective` are the attributes added by the source diff; the general-form
constructor stores `style` unvalidated (`self._style = style`). -/
structure InteractiveLPProblem where
  A : List (List ℚ)
  b : List ℚ
  c : List ℚ
  x : List String
  constraint_types : List String
  variable_types : List String
  problem_type : String
  is_negative : Bool
  pfx : String
  style : Option String
  problem_type_pda : Option String
  objective : Option String
deriving Repr, DecidableEq

/-- Python `self.m()`: the number of constraints (rows of `A`). -/
def InteractiveLPProblem.m (p : InteractiveLPProblem) : ℕ := p.A.length

/-- Python `self.n()`: the number of decision variables. -/
def InteractiveLPProblem.n (p : InteractiveLPProblem) : ℕ := p.x.length

/-- The standard-form problem `InteractiveLPProblemStandardForm`.
`ring_gens` models `self._R.gens()`: the generators of the coordinate
ring (auxiliary variable, decision variables, slack variables). -/
structure InteractiveLPProblemStandardForm extends InteractiveLPProblem where
  slack_variables : List String
  auxiliary_variable : String
  ring_gens : List String
deriving Repr, DecidableEq

def InteractiveLPProblemStandardForm.m (p : InteractiveLPProblemStandardForm) : ℕ :=
  p.toInteractiveLPProblem.m

def InteractiveLPProblemStandardForm.n (p : InteractiveLPProblemStandardForm) : ℕ :=
  p.toInteractiveLPProblem.n

/-- The message of the style `ValueError` raised by the source (quotes of
the original message dropped). -/
def styleErrorMsg : String :=
  "Style must be one of None (the default) or vanderbei"

/-- The style validation performed by `InteractiveLPProblemStandardForm.__init__`:
`"vanderbei"` and `None` are accepted, anything else raises. -/
def validateStyle (style : Option String) : Except String (Option String) :=
  match style with
  | some "vanderbei" => .ok (some "vanderbei")
  | none => .ok none
  | some _ => .error styleErrorMsg

/-- Slack-variable name generation of `InteractiveLPProblemStandardForm.__init__`.
A string argument is a shared prefix; under the vanderbei style indices
run `1..m`, under the default style `n+1..n+m` (index ranges are modelled
from the spec; the defaulted prefixes are `"w"` for vanderbei per the
source, `"x"` for the default style per the spec). -/
def generateSlackNames (st : Option String) (slack : Option (String ⊕ List String))
    (n m : ℕ) : List String :=
  match slack with
  | some (.inr names) => names
  | some (.inl pre) =>
      if st = some "vanderbei" then (List.range m).map (fun i => pre ++ toString (i + 1))
      else (List.range m).map (fun i => pre ++ toString (n + i + 1))
  | none =>
      if st = some "vanderbei" then (List.range m).map (fun i => "w" ++ toString (i + 1))
      else (List.range m).map (fun i => "x" ++ toString (n + i + 1))

/-- Objective-symbol defaulting of `InteractiveLPProblemStandardForm.__init__`
(visible in the source diff): with no explicit objective, the vanderbei
style uses `"xi"` for dual and auxiliary instances and `"zeta"` otherwise.
The default-style symbol `"z"` is modelled from the spec (hidden in the
diff). -/
def defaultObjective (st : Option String) (problem_type_pda : Option String)
    (objective : Option String) : Option String :=
  match objective with
  | some o => some o
  | none =>
      if st = some "vanderbei" then
        if problem_type_pda = some "dual" ∨ problem_type_pda = some "auxiliary" then
          some "xi"
        else some "zeta"
      else some "z"

/-- The constructor `InteractiveLPProblemStandardForm.__init__` as a
fallible function.  Style validation, objective defaulting and slack handling follow the
source diff; the ring generators (`self._R.gens()`) are modelled from the
spec: the auxiliary variable is prepended unless it is already among the
decision variables. -/
def InteractiveLPProblemStandardForm.make (A : List (List ℚ)) (b c : List ℚ)
    (x : List String) (problem_type : String)
    (slack_variables : Option (String ⊕ List String))
    (auxiliary_variable : Option String) (style : Option String)
    (problem_type_pda : Option String) (objective : Option String) :
    Except String InteractiveLPProblemStandardForm :=
  match validateStyle style with
  | .error e => .error e
  | .ok st =>
  let slacks := generateSlackNames st slack_variables x.length A.length
  let aux := auxiliary_variable.getD "x0"
  let pre := match slack_variables with
    | some (.inl s) => s
    | _ => "x"
  .ok { A := A, b := b, c := c, x := x,
        constraint_types := List.replicate A.length "<=",
        variable_types := List.replicate x.length ">=",
        problem_type := problem_type,
        is_negative := problem_type.startsWith "-",
        pfx := pre, style := st, problem_type_pda := problem_type_pda,
        objective := defaultObjective st problem_type_pda objective,
        slack_variables := slacks, auxiliary_variable := aux,
        ring_gens := (if aux ∈ x then [] else [aux]) ++ x ++ slacks }

/-- Transpose of a rectangular list-of-rows matrix with `ncols` columns
(`A.transpose()` on a Sage matrix with known column count). -/
def listTranspose (A : List (List ℚ)) (ncols : ℕ) : List (List ℚ) :=
  (List.range ncols).map (fun j => A.map (fun row => row.getD j 0))

/-- Modelled from the spec: the standard LP-duality correspondence sending
a primal constraint type to the type of the corresponding dual variable
(`<=` constraint to a `>= 0` dual variable, `==` to a free one, adjusted
by sign when the primal direction is minimize).  The mapping loop itself
is not in the source diff. -/
def dualVariableType (problem_type ct : String) : String :=
  if problem_type = "max" then
    (if ct = "<=" then ">=" else if ct = ">=" then "<=" else "")
  else
    (if ct = ">=" then ">=" else if ct = "<=" then "<=" else "")

/-- Modelled from the spec: the standard LP-duality correspondence sending
a primal variable type to the type of the corresponding dual constraint. -/
def dualConstraintType (problem_type vt : String) : String :=
  if problem_type = "max" then
    (if vt = ">=" then ">=" else if vt = "<=" then "<=" else "==")
  else
    (if vt = ">=" then "<=" else if vt = "<=" then ">=" else "==")

/-- The objective-defaulting block shared (textually duplicated) by
`dual` and `auxiliary_problem` in the source diff: an explicit objective
is kept, otherwise the vanderbei style selects `"xi"`, the default style
the stored `self._objective`, and any other style raises. -/
def objectiveDispatch (style : Option String)
    (self_objective objective : Option String) : Except String (Option String) :=
  match objective with
  | some o => .ok (some o)
  | none =>
      match style with
      | some "vanderbei" => .ok (some "xi")
      | none => .ok self_objective
      | some _ => .error styleErrorMsg

/-- The method `InteractiveLPProblem.dual`.  The unpacking swap `A, c, b, x = self.Abcx()`,
the transpose, the style-dependent objective defaulting (raising for an
unrecognized style when the objective is defaulted) and the final
construction are from the source diff; the constraint/variable-type
mapping loops and the min/max flip are hidden in the diff and modelled
from the spec. -/
def dual (p : InteractiveLPProblem) (y : Option (List String))
    (objective : Option String) : Except String InteractiveLPProblem :=
  match objectiveDispatch p.style p.objective objective with
  | .error e => .error e
  | .ok dual_objective =>
  let A := p.A
  let c := p.b
  let b := p.c
  let problem_type_pda := some "dual"
  let A := listTranspose A p.x.length
  let ypre := if p.pfx = "y" then "x" else "y"
  let y : List String := match y with
    | some ys => ys
    | none => (List.range b.length).map (fun i => ypre ++ toString (i + 1))
  let constraint_type := p.variable_types.map (dualConstraintType p.problem_type)
  let variable_type := p.constraint_types.map (dualVariableType p.problem_type)
  let problem_type := if p.problem_type = "max" then "min" else "max"
  .ok { A := A, b := b, c := c, x := y,
        constraint_types := constraint_type, variable_types := variable_type,
        problem_type := problem_type, is_negative := p.is_negative,
        pfx := ypre, style := p.style, problem_type_pda := problem_type_pda,
        objective := dual_objective }

/-- Modelled from the spec: the numeric part of `standard_form` hidden in
the diff.  Each `>=` row is negated, each `==` row becomes a pair of
opposite rows, each `<= 0` variable column is negated and each free
variable column is split into a difference of two nonnegative ones. -/
def standardize_row (ct : String) (row : List ℚ) (bi : ℚ) : List (List ℚ × ℚ) :=
  if ct = "<=" then [(row, bi)]
  else if ct = ">=" then [(row.map Neg.neg, -bi)]
  else [(row, bi), (row.map Neg.neg, -bi)]

/-- Modelled from the spec: expansion of a single coefficient according
to the type of its variable during standardization. -/
def expandEntry (vt : String) (a : ℚ) : List ℚ :=
  if vt = ">=" then [a] else if vt = "<=" then [-a] else [a, -a]

/-- Modelled from the spec: name of the substituted variables produced by
standardization. -/
def expandName (vt : String) (nm : String) : List String :=
  if vt = ">=" then [nm] else if vt = "<=" then [nm ++ "_n"] else [nm ++ "_p", nm ++ "_n"]

/-- Modelled from the spec: the data `(A, b, c, x)` of the standardized
problem (the loops building `newA`, `newb` are only partially visible in
the diff). -/
def standardize_data (p : InteractiveLPProblem) :
    List (List ℚ) × List ℚ × List ℚ × List String :=
  let rows := (p.A.zip (p.b.zip p.constraint_types)).flatMap
    (fun rbc => standardize_row rbc.2.2 rbc.1 rbc.2.1)
  let A := rows.map (fun rb => (rb.1.zip p.variable_types).flatMap
    (fun av => expandEntry av.2 av.1))
  let b := rows.map (fun rb => rb.2)
  let c := (p.c.zip p.variable_types).flatMap (fun av => expandEntry av.2 av.1)
  let x := (p.x.zip p.variable_types).flatMap (fun nv => expandName nv.2 nv.1)
  (A, b, c, x)

/-- The method `InteractiveLPProblem.standard_form`, embedded with explicit state
passing: the first component of the result is the receiver after the
call.  The source mutates the receiver (`self._prefix = "z"`) when the
style is `"vanderbei"`, before passing `self._prefix` and
`self._prefix + "0"` to the standard-form constructor. -/
def standard_form (p : InteractiveLPProblem) :
    InteractiveLPProblem × Except String InteractiveLPProblemStandardForm :=
  let Abcx := standardize_data p
  let self := if p.style = some "vanderbei" then { p with pfx := "z" } else p
  (self,
   InteractiveLPProblemStandardForm.make Abcx.1 Abcx.2.1 Abcx.2.2.1 Abcx.2.2.2
     p.problem_type (some (.inl self.pfx)) (some (self.pfx ++ "0"))
     p.style p.problem_type_pda p.objective)

/-- The method `InteractiveLPProblemStandardForm.auxiliary_problem`.
The objective
handling, the `len(X) == m + n` collision check and the keyword pattern
of the two construction calls are from the source diff; the data of the
constructed problem (column of `-1` coefficients for the auxiliary
variable, objective maximize `-x0`) is modelled from the spec. -/
def auxiliary_problem (p : InteractiveLPProblemStandardForm)
    (objective : Option String) :
    Except String InteractiveLPProblemStandardForm :=
  match objectiveDispatch p.style p.objective objective with
  | .error e => .error e
  | .ok aux_objective =>
  let X := p.ring_gens
  let m := p.m
  let n := p.n
  if X.length = m + n then
    .error "auxiliary variable is already among decision ones"
  else
    let A := p.A.map (fun row => (-1 : ℚ) :: row)
    let c := (-1 : ℚ) :: List.replicate n 0
    if p.style = some "vanderbei" then
      InteractiveLPProblemStandardForm.make A p.b c (X.take (X.length - m)) "max"
        (some (.inr (X.drop (X.length - m)))) (some (X.headD "x0"))
        p.style (some "auxiliary") aux_objective
    else
      InteractiveLPProblemStandardForm.make A p.b c (X.take (X.length - m)) "max"
        (some (.inr (X.drop (X.length - m)))) (some (X.headD "x0"))
        none none aux_objective

/-- The explicit dictionary `LPDictionary`: the stored tuple
`self._AbcvBNz` together with the naming metadata passed to
`LPDictionary.__init__` in the source diff. -/
structure LPDictionary where
  A : List (List ℚ)
  b : List ℚ
  c : List ℚ
  v : ℚ
  B : List String
  N : List String
  objective_variable : Option String
  style : Option String
  problem_type_pda : Option String
deriving Repr, DecidableEq

/-- The accessor `LPDictionary.nonbasic_variables`. -/
def LPDictionary.nonbasic_variables (d : LPDictionary) : List String := d.N

/-- Modelled from the spec: `is_feasible` is true iff every entry of the
current constant column `b` is nonnegative (the method body is not in
the source diff). -/
def LPDictionary.is_feasible (d : LPDictionary) : Bool :=
  d.b.all (fun t => decide (0 ≤ t))

/-- Adds `t` to the entry of `l` at index `i`. -/
def addAt (l : List ℚ) (i : ℕ) (t : ℚ) : List ℚ :=
  l.set i (l.getD i 0 + t)

/-- The method `InteractiveLPProblemStandardForm.feasible_dictionary`.
The two
sanity checks (auxiliary variable must be nonbasic, dictionary must be
feasible) and the final construction with `problem_type_pda =
"ordinary primal dictionary"` are from the source diff; the middle of
the body (dropping the auxiliary column and rebuilding the objective
row, of which only the `v += cj * b[i]` update is visible) is modelled
from the spec. -/
def feasible_dictionary (p : InteractiveLPProblemStandardForm)
    (auxiliary_dictionary : LPDictionary) : Except String LPDictionary :=
  let x0 := p.auxiliary_variable
  if x0 ∉ auxiliary_dictionary.nonbasic_variables then
    .error "the auxiliary variable must be non-basic"
  else if ¬ auxiliary_dictionary.is_feasible then
    .error "the auxiliary dictionary must be feasible"
  else
    let B := auxiliary_dictionary.B
    let k := auxiliary_dictionary.N.indexOf x0
    let N := auxiliary_dictionary.N.eraseIdx k
    let A := auxiliary_dictionary.A.map (fun row => row.eraseIdx k)
    let b := auxiliary_dictionary.b
    let cv := (p.x.zip p.c).foldl
      (fun cv xc =>
        if xc.1 ∈ N then (addAt cv.1 (N.indexOf xc.1) xc.2, cv.2)
        else if xc.1 ∈ B then
          let i := B.indexOf xc.1
          ((cv.1.zipWith (fun cc aa => cc + xc.2 * aa) ((A.getD i []) ++
              List.replicate (N.length - (A.getD i []).length) 0)),
           cv.2 + xc.2 * b.getD i 0)
        else cv)
      ((List.replicate N.length (0 : ℚ), (0 : ℚ)))
    .ok { A := A, b := b, c := cv.1, v := cv.2, B := B, N := N,
          objective_variable := p.objective, style := p.style,
          problem_type_pda := some "ordinary primal dictionary" }

/-- The method `InteractiveLPProblemStandardForm.initial_dictionary`
from the source
diff: `LPDictionary(A, b, c, 0, x[-m:], x[-m-n:-m], ...)` over the ring
generators `x`. -/
def initial_dictionary (p : InteractiveLPProblemStandardForm) : LPDictionary :=
  let x := p.ring_gens
  let m := p.m
  let n := p.n
  { A := p.A, b := p.b, c := p.c, v := 0,
    B := x.drop (x.length - m), N := (x.drop (x.length - m - n)).take n,
    objective_variable := p.objective, style := p.style,
    problem_type_pda := p.problem_type_pda }

/-- The revised dictionary `LPRevisedDictionary`: the problem reference,
ordered basic-variable list and naming metadata stored by
`LPRevisedDictionary.__init__`. -/
structure LPRevisedDictionary where
  problem : InteractiveLPProblemStandardForm
  x_B : List String
  style : Option String
  problem_type_pda : Option String
  objective : Option String
deriving Repr, DecidableEq

/-- The constructor `LPRevisedDictionary.__init__` as a fallible
function.  The style
guard (its message is visible as context in the diff) and the guard
against auxiliary problems (`problem.auxiliary_variable() ==
problem.decision_variables()[0]`) are from the source; the trailing
partition-dimension check is modelled from the spec
(`InvalidPartitionError`). -/
def LPRevisedDictionary.make (problem : InteractiveLPProblemStandardForm)
    (x_B : List String) (style : Option String)
    (problem_type_pda : Option String) (objective : Option String) :
    Except String LPRevisedDictionary :=
  if style ≠ some "vanderbei" then
    .error "For educational purposes, style must be initialized to vanderbei"
  else if problem.x.headD "" = problem.auxiliary_variable then
    .error "revised dictionaries should not be constructed for auxiliary problems"
  else if x_B.length ≠ problem.m then
    .error "the number of basic variables must match the number of constraints"
  else
    .ok { problem := problem, x_B := x_B, style := style,
          problem_type_pda := problem_type_pda, objective := objective }

/-- The default basic-variable list computed by `revised_dictionary` when
no basis is supplied (from the source diff): the slack variables, with
the slack of the row of the most negative entry of `b` (the first such
row, by `list.index`) replaced by the auxiliary variable when `b` has a
negative entry.  `min(self.b())` on an empty `b` cannot occur for an
actual problem and is modelled as no replacement. -/
def revised_dictionary_default_x_B (p : InteractiveLPProblemStandardForm) :
    List String :=
  let x_B := p.slack_variables
  match p.b.min? with
  | none => x_B
  | some bm =>
      if bm < 0 then x_B.set (p.b.indexOf bm) p.auxiliary_variable else x_B

/-- The method `InteractiveLPProblemStandardForm.revised_dictionary`
from the source
diff.  A missing or empty basis argument (Python falsiness of `x_B`)
selects the default basis. -/
def revised_dictionary (p : InteractiveLPProblemStandardForm)
    (x_B : Option (List String)) : Except String LPRevisedDictionary :=
  let style := p.style
  let problem_type_pda := p.problem_type_pda
  let objective := p.objective
  let x_B := match x_B with
    | none => revised_dictionary_default_x_B p
    | some [] => revised_dictionary_default_x_B p
    | some l => l
  LPRevisedDictionary.make p x_B style problem_type_pda objective

/-- A small concrete general-form problem under the vanderbei style,
used in witnesses and counterexamples. -/
def exampleProblemV : InteractiveLPProblem :=
  { A := [[1]], b := [1], c := [1], x := ["x1"], constraint_types := ["<="],
    variable_types := [">="], problem_type := "max", is_negative := false,
    pfx := "x", style := some "vanderbei", problem_type_pda := none,
    objective := none }

/-- The same concrete problem under the default style. -/
def exampleProblemD : InteractiveLPProblem :=
  { exampleProblemV with style := none }

/-- A small concrete standard-form problem under the default style. -/
def exampleStd : InteractiveLPProblemStandardForm :=
  { A := [[1]], b := [1], c := [1], x := ["x1"], constraint_types := ["<="],
    variable_types := [">="], problem_type := "max", is_negative := false,
    pfx := "x", style := none, problem_type_pda := none, objective := some "z",
    slack_variables := ["x2"], auxiliary_variable := "x0",
    ring_gens := ["x0", "x1", "x2"] }

/-- The same concrete standard-form problem under the vanderbei style. -/
def exampleStdV : InteractiveLPProblemStandardForm :=
  { exampleStd with style := some "vanderbei" }

/-- A concrete standard-form problem whose right-hand side has a negative
entry (in row 1, the minimum `-3`). -/
def exampleStdNeg : InteractiveLPProblemStandardForm :=
  { exampleStd with
    A := [[1], [1]],
    b := [2, -3],
    constraint_types := ["<=", "<="],
    slack_variables := ["x2", "x3"],
    ring_gens := ["x0", "x1", "x2", "x3"] }

/-- A concrete auxiliary problem: its auxiliary variable `x0` is its
first decision variable. -/
def exampleAux : InteractiveLPProblemStandardForm :=
  { A := [[-1, 1]], b := [1], c := [-1, 0], x := ["x0", "x1"],
    constraint_types := ["<="], variable_types := [">=", ">="],
    problem_type := "max", is_negative := false, pfx := "x",
    style := some "vanderbei", problem_type_pda := some "auxiliary",
    objective := some "xi", slack_variables := ["x2"],
    auxiliary_variable := "x0", ring_gens := ["x0", "x1", "x2"] }

/-- A concrete feasible auxiliary dictionary with the auxiliary variable
`x0` nonbasic. -/
def exampleAuxDict : LPDictionary :=
  { A := [[1, -1]], b := [1], c := [-1, 0], v := 0, B := ["x2"],
    N := ["x0", "x1"], objective_variable := some "xi",
    style := some "vanderbei", problem_type_pda := some "auxiliary" }

end ISM

namespace Numeric

/-- Modelled from the spec: the numeric data of a standard-form problem,
`A` an `m × n` matrix over an exact field (here `ℚ`), right-hand side `b`
and objective coefficients `c`.  The bodies of `LPDictionary` and
`LPRevisedDictionary` are not under `src/` (only their `__init__`
signatures appear in the diff), so the dictionary mathematics of this
namespace is modelled from spec sections 4.2 and 4.3. -/
structure Problem (m n : ℕ) where
  A : Matrix (Fin m) (Fin n) ℚ
  b : Fin m → ℚ
  c : Fin n → ℚ

/-- A variable of the standard-form system: `Sum.inl j` is the decision
variable `x_j`, `Sum.inr i` the slack variable of row `i`. -/
abbrev Var (m n : ℕ) := Fin n ⊕ Fin m

/-- The full constraint matrix `[A | I]` of the standard-form system
`A x + s = b` (the slack columns form the identity block). -/
def fullMatrix {m n : ℕ} (P : Problem m n) : Matrix (Fin m) (Var m n) ℚ :=
  fun i v => match v with
  | .inl j => P.A i j
  | .inr k => if k = i then 1 else 0

/-- The full objective vector: `c` on decision variables, `0` on slacks. -/
def cFull {m n : ℕ} (P : Problem m n) : Var m n → ℚ :=
  fun v => match v with
  | .inl j => P.c j
  | .inr _ => 0

/-- Modelled from the spec (section 4.2): the explicit dictionary.  Rows
are indexed by basic variables (`B i` is the basic variable of row `i`),
columns by nonbasic variables; the dictionary states
`x_{B i} = b i + ∑ j, A i j * x_{N j}` and
`z = v + ∑ j, c j * x_{N j}`. -/
structure LPDictionary (m n : ℕ) where
  A : Matrix (Fin m) (Fin n) ℚ
  b : Fin m → ℚ
  c : Fin n → ℚ
  v : ℚ
  B : Fin m → Var m n
  N : Fin n → Var m n

/-- The initial dictionary of a standard-form problem: slacks basic,
decision variables nonbasic, `x_slack = b - A x`. -/
def LPDictionary.initial {m n : ℕ} (P : Problem m n) : LPDictionary m n :=
  { A := -P.A, b := P.b, c := P.c, v := 0, B := Sum.inr, N := Sum.inl }

/-- Modelled from the spec (section 4.2, `pivot`): the entering variable
`N s` replaces the leaving variable `B r` in the basic set; the pivot row
is divided by the pivot element and eliminated from every other row and
from the objective row. -/
def LPDictionary.pivot {m n : ℕ} (D : LPDictionary m n) (r : Fin m) (s : Fin n) :
    LPDictionary m n :=
  let a := D.A r s
  { A := fun i j =>
      if i = r then (if j = s then 1 / a else -(D.A r j) / a)
      else (if j = s then D.A i s / a else D.A i j - D.A i s * D.A r j / a),
    b := fun i => if i = r then -(D.b r) / a else D.b i - D.A i s * D.b r / a,
    c := fun j => if j = s then D.c s / a else D.c j - D.c s * D.A r j / a,
    v := D.v - D.c s * D.b r / a,
    B := Function.update D.B r (D.N s),
    N := Function.update D.N s (D.B r) }

/-- Application of a sequence of pivots `(r, s)` to a dictionary. -/
def LPDictionary.applyPivots {m n : ℕ} (D : LPDictionary m n) :
    List (Fin m × Fin n) → LPDictionary m n
  | [] => D
  | p :: rest => (D.pivot p.1 p.2).applyPivots rest

/-- A pivot sequence is valid when each pivot element is nonzero at the
time the pivot is applied. -/
def LPDictionary.ValidSeq {m n : ℕ} (D : LPDictionary m n) :
    List (Fin m × Fin n) → Prop
  | [] => True
  | p :: rest => D.A p.1 p.2 ≠ 0 ∧ (D.pivot p.1 p.2).ValidSeq rest

/-- The basis sub-matrix extracted from the full matrix: column `k` is
the full-matrix column of the basic variable `B k`. -/
def basisMatrix {m n : ℕ} (P : Problem m n) (B : Fin m → Var m n) :
    Matrix (Fin m) (Fin m) ℚ :=
  fun i k => fullMatrix P i (B k)

/-- The nonbasic sub-matrix: column `j` is the full-matrix column of the
nonbasic variable `N j`. -/
def nonbasicMatrix {m n : ℕ} (P : Problem m n) (N : Fin n → Var m n) :
    Matrix (Fin m) (Fin n) ℚ :=
  fun i j => fullMatrix P i (N j)

/-- Modelled from the spec (sections 4.3, 3): the revised dictionary
stores only the basic-variable list and the inverse of the basis
sub-matrix; everything else is derived on demand. -/
structure LPRevisedDictionary (m n : ℕ) where
  B : Fin m → Var m n
  N : Fin n → Var m n
  Binv : Matrix (Fin m) (Fin m) ℚ

/-- Derived constant column of the revised dictionary:
`b_B = Binv · b`. -/
def LPRevisedDictionary.b {m n : ℕ} (P : Problem m n)
    (R : LPRevisedDictionary m n) : Fin m → ℚ :=
  Matrix.mulVec R.Binv P.b

/-- Derived dictionary-view coefficient matrix of the revised dictionary:
the tableau column of nonbasic variable `j` is `Binv · A[:, N j]`, and in
the dictionary sign convention `x_B = b + A x_N` this column enters
negated. -/
def LPRevisedDictionary.A {m n : ℕ} (P : Problem m n)
    (R : LPRevisedDictionary m n) : Matrix (Fin m) (Fin n) ℚ :=
  -(R.Binv * nonbasicMatrix P R.N)

/-- Derived objective row of the revised dictionary:
`c_full[N] - c_full[B]ᵀ · Binv · A[:, N]`. -/
def LPRevisedDictionary.c {m n : ℕ} (P : Problem m n)
    (R : LPRevisedDictionary m n) : Fin n → ℚ :=
  fun j => cFull P (R.N j) -
    Matrix.vecMul (fun i => cFull P (R.B i)) (R.Binv * nonbasicMatrix P R.N) j

/-- Derived objective value of the revised dictionary:
`c_full[B]ᵀ · Binv · b`. -/
def LPRevisedDictionary.v {m n : ℕ} (P : Problem m n)
    (R : LPRevisedDictionary m n) : ℚ :=
  Matrix.dotProduct (fun i => cFull P (R.B i)) (Matrix.mulVec R.Binv P.b)

/-- The entering-variable candidates (spec section 4.2): nonbasic columns
with a strictly positive objective coefficient. -/
def enteringCandidates {n : ℕ} (c : Fin n → ℚ) : Finset (Fin n) :=
  Finset.univ.filter (fun j => 0 < c j)

/-- The rows eligible for the ratio test for entering column `s` (spec
section 4.2): rows whose entry in the entering column is negative, in
increasing row order. -/
def ratioRows {m n : ℕ} (A : Matrix (Fin m) (Fin n) ℚ) (s : Fin n) :
    List (Fin m) :=
  (List.finRange m).filter (fun i => decide (A i s < 0))

/-- The leaving row selected by the minimum-ratio test with
lowest-row-index tie-breaking (spec section 4.2): among rows with a
negative entry in the entering column, the earliest one minimizing
`b i / (-(A i s))`. -/
def leavingRow {m n : ℕ} (A : Matrix (Fin m) (Fin n) ℚ) (b : Fin m → ℚ)
    (s : Fin n) : Option (Fin m) :=
  ((ratioRows A s).filter (fun i => decide (∀ k ∈ ratioRows A s,
      b i / (-(A i s)) ≤ b k / (-(A k s))))).head?

/-- A concrete one-constraint, one-variable problem used to witness the
equivalence theorem. -/
def witnessP : Problem 1 1 :=
  { A := fun _ _ => 1, b := fun _ => 3, c := fun _ => 5 }

/-- A one-step pivot sequence on the witness problem (pivot element
`-1`). -/
def witnessSeq : List (Fin 1 × Fin 1) := [(0, 0)]

/-- The explicit dictionary reached by the witness pivot sequence. -/
def witnessD : LPDictionary 1 1 :=
  (LPDictionary.initial witnessP).applyPivots witnessSeq

/-- The revised dictionary at the same partition: its cached basis
inverse is `(1)` since the basis sub-matrix is `(1)`. -/
def witnessR : LPRevisedDictionary 1 1 :=
  { B := witnessD.B, N := witnessD.N, Binv := fun _ _ => 1 }

/-- Soundness of an explicit dictionary for a problem: its equations
agree with the original standard-form system.  Writing `M` for the basis
sub-matrix and `cB` for the objective coefficients of the basic
variables, the four conditions say `M b_dict = b`, `M A_dict = -A_N`,
`v = cB · b_dict` and `c_dict = c_N + cB A_dict`. -/
def Sound {m n : ℕ} (P : Problem m n) (D : LPDictionary m n) : Prop :=
  (∀ i, (∑ k, fullMatrix P i (D.B k) * D.b k) = P.b i) ∧
  (∀ i j, (∑ k, fullMatrix P i (D.B k) * D.A k j) = -(fullMatrix P i (D.N j))) ∧
  (D.v = ∑ k, cFull P (D.B k) * D.b k) ∧
  (∀ j, D.c j = cFull P (D.N j) + ∑ k, cFull P (D.B k) * D.A k j)

theorem sound_initial {m n : ℕ} (P : Problem m n) :
    Sound P (LPDictionary.initial P) := by
  refine ⟨fun i => ?_, fun i j => ?_, ?_, fun j => ?_⟩
  · simp [LPDictionary.initial, fullMatrix, Finset.sum_ite_eq]
  · simp [LPDictionary.initial, fullMatrix, Finset.sum_ite_eq]
  · simp [LPDictionary.initial, cFull]
  · simp [LPDictionary.initial, cFull]

/-- First pivot sum computation: the combination arising in rows other
than the entering column after a pivot at row `r` with pivot element
`a = d r ≠ 0`. -/
theorem pivot_sum_col {m : ℕ} (G d q : Fin m → ℚ) (r : Fin m) (a α : ℚ)
    (ha : a ≠ 0) (hd : d r = a) :
    (α - ∑ k, G k * d k) * (-(q r) / a) +
      ∑ k in Finset.univ.erase r, G k * (q k - d k * q r / a) =
    (∑ k, G k * q k) - α * q r / a := by
  have e1 : ∀ k, G k * (q k - d k * q r / a) =
      G k * q k - G k * d k * (q r / a) := by intro k; ring
  rw [Finset.sum_congr rfl fun k _ => e1 k, Finset.sum_sub_distrib,
    ← Finset.sum_mul, Finset.sum_erase_eq_sub (Finset.mem_univ r),
    Finset.sum_erase_eq_sub (Finset.mem_univ r), hd]
  field_simp
  ring

/-- Second pivot sum computation: the combination arising in the entering
column after a pivot at row `r` with pivot element `a = d r ≠ 0`. -/
theorem pivot_sum_pivcol {m : ℕ} (G d : Fin m → ℚ) (r : Fin m) (a α : ℚ)
    (ha : a ≠ 0) (hd : d r = a) :
    (α - ∑ k, G k * d k) * (1 / a) +
      ∑ k in Finset.univ.erase r, G k * (d k / a) =
    α / a - G r := by
  have e1 : ∀ k, G k * (d k / a) = G k * d k * (1 / a) := by intro k; ring
  rw [Finset.sum_congr rfl fun k _ => e1 k, ← Finset.sum_mul,
    Finset.sum_erase_eq_sub (Finset.mem_univ r), hd]
  field_simp
  ring

theorem pivot_B_same {m n : ℕ} (D : LPDictionary m n) (r : Fin m) (s : Fin n) :
    (D.pivot r s).B r = D.N s := by
  simp [LPDictionary.pivot]

theorem pivot_B_ne {m n : ℕ} (D : LPDictionary m n) (r : Fin m) (s : Fin n)
    {k : Fin m} (hk : k ≠ r) : (D.pivot r s).B k = D.B k := by
  simp [LPDictionary.pivot, Function.update_noteq hk]

theorem pivot_N_same {m n : ℕ} (D : LPDictionary m n) (r : Fin m) (s : Fin n) :
    (D.pivot r s).N s = D.B r := by
  simp [LPDictionary.pivot]

theorem pivot_N_ne {m n : ℕ} (D : LPDictionary m n) (r : Fin m) (s : Fin n)
    {j : Fin n} (hj : j ≠ s) : (D.pivot r s).N j = D.N j := by
  simp [LPDictionary.pivot, Function.update_noteq hj]

theorem pivot_b_same {m n : ℕ} (D : LPDictionary m n) (r : Fin m) (s : Fin n) :
    (D.pivot r s).b r = -(D.b r) / D.A r s := by
  simp [LPDictionary.pivot]

theorem pivot_b_ne {m n : ℕ} (D : LPDictionary m n) (r : Fin m) (s : Fin n)
    {k : Fin m} (hk : k ≠ r) :
    (D.pivot r s).b k = D.b k - D.A k s * D.b r / D.A r s := by
  simp [LPDictionary.pivot, hk]

theorem pivot_A_rs {m n : ℕ} (D : LPDictionary m n) (r : Fin m) (s : Fin n) :
    (D.pivot r s).A r s = 1 / D.A r s := by
  simp [LPDictionary.pivot]

theorem pivot_A_rj {m n : ℕ} (D : LPDictionary m n) (r : Fin m) (s : Fin n)
    {j : Fin n} (hj : j ≠ s) :
    (D.pivot r s).A r j = -(D.A r j) / D.A r s := by
  simp [LPDictionary.pivot, hj]

theorem pivot_A_ks {m n : ℕ} (D : LPDictionary m n) (r : Fin m) (s : Fin n)
    {k : Fin m} (hk : k ≠ r) :
    (D.pivot r s).A k s = D.A k s / D.A r s := by
  simp [LPDictionary.pivot, hk]

theorem pivot_A_kj {m n : ℕ} (D : LPDictionary m n) (r : Fin m) (s : Fin n)
    {k : Fin m} {j : Fin n} (hk : k ≠ r) (hj : j ≠ s) :
    (D.pivot r s).A k j = D.A k j - D.A k s * D.A r j / D.A r s := by
  simp [LPDictionary.pivot, hk, hj]

theorem pivot_c_s {m n : ℕ} (D : LPDictionary m n) (r : Fin m) (s : Fin n) :
    (D.pivot r s).c s = D.c s / D.A r s := by
  simp [LPDictionary.pivot]

theorem pivot_c_j {m n : ℕ} (D : LPDictionary m n) (r : Fin m) (s : Fin n)
    {j : Fin n} (hj : j ≠ s) :
    (D.pivot r s).c j = D.c j - D.c s * D.A r j / D.A r s := by
  simp [LPDictionary.pivot, hj]

theorem pivot_v_eq {m n : ℕ} (D : LPDictionary m n) (r : Fin m) (s : Fin n) :
    (D.pivot r s).v = D.v - D.c s * D.b r / D.A r s := rfl

theorem sound_pivot {m n : ℕ} {P : Problem m n} {D : LPDictionary m n}
    (hS : Sound P D) (r : Fin m) (s : Fin n) (ha : D.A r s ≠ 0) :
    Sound P (D.pivot r s) := by
  obtain ⟨h1, h2, h3, h4⟩ := hS
  have hNs : ∀ i, fullMatrix P i (D.N s)
      = 0 - ∑ k, fullMatrix P i (D.B k) * D.A k s := by
    intro i
    have := h2 i s
    linarith
  have hcNs : cFull P (D.N s) = D.c s - ∑ k, cFull P (D.B k) * D.A k s := by
    have := h4 s
    linarith
  refine ⟨fun i => ?_, fun i j => ?_, ?_, fun j => ?_⟩
  · have key := pivot_sum_col (fun k => fullMatrix P i (D.B k))
      (fun k => D.A k s) D.b r (D.A r s) 0 ha rfl
    rw [← Finset.add_sum_erase _ _ (Finset.mem_univ r), pivot_B_same,
      pivot_b_same,
      Finset.sum_congr rfl (fun k hk => by
        rw [pivot_B_ne D r s (Finset.ne_of_mem_erase hk),
          pivot_b_ne D r s (Finset.ne_of_mem_erase hk)]),
      hNs i, key, h1 i]
    ring
  · by_cases hj : j = s
    · subst hj
      have key := pivot_sum_pivcol (fun k => fullMatrix P i (D.B k))
        (fun k => D.A k j) r (D.A r j) 0 ha rfl
      rw [← Finset.add_sum_erase _ _ (Finset.mem_univ r), pivot_B_same,
        pivot_A_rs,
        Finset.sum_congr rfl (fun k hk => by
          rw [pivot_B_ne D r j (Finset.ne_of_mem_erase hk),
            pivot_A_ks D r j (Finset.ne_of_mem_erase hk)]),
        hNs i, key, pivot_N_same]
      ring
    · have key := pivot_sum_col (fun k => fullMatrix P i (D.B k))
        (fun k => D.A k s) (fun k => D.A k j) r (D.A r s) 0 ha rfl
      rw [← Finset.add_sum_erase _ _ (Finset.mem_univ r), pivot_B_same,
        pivot_A_rj D r s hj,
        Finset.sum_congr rfl (fun k hk => by
          rw [pivot_B_ne D r s (Finset.ne_of_mem_erase hk),
            pivot_A_kj D r s (Finset.ne_of_mem_erase hk) hj]),
        hNs i, key, h2 i j, pivot_N_ne D r s hj]
      ring
  · have key := pivot_sum_col (fun k => cFull P (D.B k))
      (fun k => D.A k s) D.b r (D.A r s) (D.c s) ha rfl
    rw [pivot_v_eq, ← Finset.add_sum_erase _ _ (Finset.mem_univ r),
      pivot_B_same, pivot_b_same,
      Finset.sum_congr rfl (fun k hk => by
        rw [pivot_B_ne D r s (Finset.ne_of_mem_erase hk),
          pivot_b_ne D r s (Finset.ne_of_mem_erase hk)]),
      hcNs, key, ← h3]
  · by_cases hj : j = s
    · subst hj
      have key := pivot_sum_pivcol (fun k => cFull P (D.B k))
        (fun k => D.A k j) r (D.A r j) (D.c j) ha rfl
      rw [← Finset.add_sum_erase _ _ (Finset.mem_univ r), pivot_B_same,
        pivot_A_rs,
        Finset.sum_congr rfl (fun k hk => by
          rw [pivot_B_ne D r j (Finset.ne_of_mem_erase hk),
            pivot_A_ks D r j (Finset.ne_of_mem_erase hk)]),
        hcNs, key, pivot_N_same, pivot_c_s]
      ring
    · have key := pivot_sum_col (fun k => cFull P (D.B k))
        (fun k => D.A k s) (fun k => D.A k j) r (D.A r s) (D.c s) ha rfl
      rw [← Finset.add_sum_erase _ _ (Finset.mem_univ r), pivot_B_same,
        pivot_A_rj D r s hj,
        Finset.sum_congr rfl (fun k hk => by
          rw [pivot_B_ne D r s (Finset.ne_of_mem_erase hk),
            pivot_A_kj D r s (Finset.ne_of_mem_erase hk) hj]),
        hcNs, key, pivot_N_ne D r s hj, pivot_c_j D r s hj, h4 j]
      ring

theorem sound_applyPivots {m n : ℕ} {P : Problem m n} {D : LPDictionary m n}
    (hS : Sound P D) (seq : List (Fin m × Fin n)) (hseq : D.ValidSeq seq) :
    Sound P (D.applyPivots seq) := by
  induction seq generalizing D with
  | nil => exact hS
  | cons p rest ih =>
      obtain ⟨ha, hrest⟩ := hseq
      exact ih (sound_pivot hS p.1 p.2 ha) hrest

/-- Claim C1: for every standard-form problem and every basic/nonbasic
partition reachable by pivoting, the explicit dictionary
(`LPDictionary`) and the revised dictionary (`LPRevisedDictionary`)
constructed for that same partition report identical constant column
`b`, objective coefficients `c`, objective value, and the same
entering/leaving decisions (here additionally the same dictionary-view
coefficient matrix, from which the decisions are computed). -/
theorem explicit_revised_dictionary_equivalence {m n : ℕ} (P : Problem m n)
    (seq : List (Fin m × Fin n))
    (hseq : (LPDictionary.initial P).ValidSeq seq) (D : LPDictionary m n)
    (hD : D = (LPDictionary.initial P).applyPivots seq)
    (R : LPRevisedDictionary m n) (hB : R.B = D.B) (hN : R.N = D.N)
    (hinv : R.Binv * basisMatrix P R.B = 1) :
    D.b = R.b P ∧ D.c = R.c P ∧ D.v = R.v P ∧ D.A = R.A P ∧
    enteringCandidates D.c = enteringCandidates (R.c P) ∧
    (∀ s, leavingRow D.A D.b s = leavingRow (R.A P) (R.b P) s) := by
  have hS : Sound P D := hD ▸ sound_applyPivots (sound_initial P) seq hseq
  obtain ⟨h1, h2, h3, h4⟩ := hS
  have hM1 : Matrix.mulVec (basisMatrix P D.B) D.b = P.b := by
    funext i
    simpa [Matrix.mulVec, Matrix.dotProduct, basisMatrix] using h1 i
  have hM2 : basisMatrix P D.B * D.A = -(nonbasicMatrix P D.N) := by
    ext i j
    simpa [Matrix.mul_apply, basisMatrix] using h2 i j
  have hb : D.b = R.b P := by
    rw [LPRevisedDictionary.b, ← hM1, Matrix.mulVec_mulVec, ← hB, hinv,
      Matrix.one_mulVec]
  have hM2' : nonbasicMatrix P D.N = -(basisMatrix P D.B * D.A) := by
    rw [hM2, neg_neg]
  have hA : D.A = R.A P := by
    rw [LPRevisedDictionary.A, hN, hM2', Matrix.mul_neg, neg_neg,
      ← Matrix.mul_assoc, ← hB, hinv, Matrix.one_mul]
  have hbinvb : Matrix.mulVec R.Binv P.b = D.b := hb.symm
  have hv : D.v = R.v P := by
    rw [LPRevisedDictionary.v, hbinvb, hB, h3]
    simp [Matrix.dotProduct]
  have hRA : R.Binv * nonbasicMatrix P R.N = -(D.A) := by
    have := hA
    rw [LPRevisedDictionary.A] at this
    rw [← neg_neg (R.Binv * nonbasicMatrix P R.N), ← this]
  have hc : D.c = R.c P := by
    funext j
    rw [LPRevisedDictionary.c, hRA, hN, hB, h4 j]
    simp [Matrix.vecMul, Matrix.dotProduct, mul_neg, Finset.sum_neg_distrib]
  refine ⟨hb, hc, hv, hA, by rw [hc], fun s => by rw [hA, hb]⟩

theorem explicit_revised_dictionary_equivalence_witness :
    witnessD.b = witnessR.b witnessP ∧ witnessD.c = witnessR.c witnessP ∧
    witnessD.v = witnessR.v witnessP ∧ witnessD.A = witnessR.A witnessP ∧
    enteringCandidates witnessD.c = enteringCandidates (witnessR.c witnessP) ∧
    (∀ s, leavingRow witnessD.A witnessD.b s
      = leavingRow (witnessR.A witnessP) (witnessR.b witnessP) s) :=
  explicit_revised_dictionary_equivalence witnessP witnessSeq
    ⟨by norm_num [LPDictionary.initial, witnessP], trivial⟩ witnessD rfl
    witnessR rfl rfl (by
      ext i k
      fin_cases i
      fin_cases k
      simp [witnessR, witnessD, witnessSeq, witnessP, LPDictionary.applyPivots,
        LPDictionary.pivot, LPDictionary.initial, basisMatrix, fullMatrix,
        Matrix.mul_apply, Matrix.one_apply])

end Numeric

namespace ISM

theorem min?_spec {l : List ℚ} {a : ℚ} (h : l.min? = some a) :
    a ∈ l ∧ ∀ b ∈ l, a ≤ b := by
  have anti : Std.Antisymm (fun x1 x2 : ℚ => x1 ≤ x2) := ⟨@le_antisymm ℚ _⟩
  exact (List.min?_eq_some_iff (fun _ => le_refl _) (fun _ _ => min_choice _ _)
    (fun _ _ _ => le_min_iff)).mp h

theorem getD_ne_of_lt_indexOf {l : List ℚ} {a : ℚ} {k : ℕ}
    (hk : k < l.indexOf a) (d : ℚ) : l.getD k d ≠ a := by
  induction l generalizing k with
  | nil => simp [List.indexOf] at hk
  | cons x t ih =>
      by_cases hx : x = a
      · subst hx
        simp [List.indexOf_cons_self] at hk
      · rw [List.indexOf_cons_ne _ hx] at hk
        cases k with
        | zero => simpa using hx
        | succ k =>
            have : k < t.indexOf a := by omega
            simpa using ih this

theorem getD_indexOf {l : List ℚ} {a : ℚ} (h : a ∈ l) :
    l.getD (l.indexOf a) 0 = a := by
  rw [List.getD_eq_getElem?_getD,
    List.getElem?_eq_getElem (List.indexOf_lt_length.mpr h)]
  simp [List.getElem_indexOf]

/-- Claim C2, counterexample: `standard_form` does mutate its receiver.
On a concrete vanderbei-style problem with prefix `"x"` the receiver
returned by the call differs from the original (its prefix has become
`"z"`). -/
theorem standard_form_mutates_receiver_cex :
    (standard_form exampleProblemV).1 ≠ exampleProblemV := by
  intro h
  have hpfx := congrArg InteractiveLPProblem.pfx h
  simp [standard_form, exampleProblemV] at hpfx

/-- Claim C2, amended: `dual` and `auxiliary_problem` are pure in the
embedding; `standard_form` leaves every field of the receiver unchanged
except the prefix, which becomes `"z"` exactly when the style is
`"vanderbei"`. -/
theorem standard_form_receiver_frame (p : InteractiveLPProblem) :
    (standard_form p).1.pfx
      = (if p.style = some "vanderbei" then "z" else p.pfx) ∧
    (standard_form p).1.A = p.A ∧ (standard_form p).1.b = p.b ∧
    (standard_form p).1.c = p.c ∧ (standard_form p).1.x = p.x ∧
    (standard_form p).1.constraint_types = p.constraint_types ∧
    (standard_form p).1.variable_types = p.variable_types ∧
    (standard_form p).1.problem_type = p.problem_type ∧
    (standard_form p).1.is_negative = p.is_negative ∧
    (standard_form p).1.style = p.style ∧
    (standard_form p).1.problem_type_pda = p.problem_type_pda ∧
    (standard_form p).1.objective = p.objective := by
  by_cases h : p.style = some "vanderbei" <;>
    simp [standard_form, h]

/-- The standard-form constructor never raises for the two recognized
styles, and passes its data arguments through unchanged. -/
theorem make_ok (A : List (List ℚ)) (b c : List ℚ) (x : List String)
    (pt : String) (sv : Option (String ⊕ List String)) (av : Option String)
    (style : Option String) (pda obj : Option String)
    (hstyle : style = none ∨ style = some "vanderbei") :
    ∃ q, InteractiveLPProblemStandardForm.make A b c x pt sv av style pda obj
        = .ok q ∧
      q.A = A ∧ q.b = b ∧ q.c = c ∧ q.x = x ∧
      q.auxiliary_variable = av.getD "x0" := by
  rcases hstyle with h | h <;> subst h <;>
    exact ⟨_, rfl, rfl, rfl, rfl, rfl, rfl⟩

/-- Claim C3: `auxiliary_problem` raises exactly when a variable with the
auxiliary slot identity is already among the decision variables (the
problem already has its full complement of `m + n` ring generators);
otherwise it returns a standard-form problem whose auxiliary variable
has coefficient `-1` in every constraint row. -/
theorem auxiliary_problem_collision_check
    (p : InteractiveLPProblemStandardForm) (objective : Option String)
    (hstyle : p.style = none ∨ p.style = some "vanderbei")
    (hgens : p.ring_gens = (if p.auxiliary_variable ∈ p.x then [] else
      [p.auxiliary_variable]) ++ p.x ++ p.slack_variables)
    (hs : p.slack_variables.length = p.m) (hn : p.x.length = p.n) :
    ((auxiliary_problem p objective).isOk = false ↔
      p.auxiliary_variable ∈ p.x) ∧
    (p.auxiliary_variable ∉ p.x →
      ∃ q, auxiliary_problem p objective = .ok q ∧
        q.A = p.A.map (fun row => (-1 : ℚ) :: row) ∧
        (∀ row ∈ q.A, row.headD 0 = -1) ∧
        q.auxiliary_variable = p.auxiliary_variable) := by
  obtain ⟨ao, hao⟩ : ∃ ao,
      objectiveDispatch p.style p.objective objective = .ok ao := by
    rcases hstyle with h | h <;> rcases objective with _ | o <;>
      simp [objectiveDispatch, h]
  by_cases hmem : p.auxiliary_variable ∈ p.x
  · have hlen : p.ring_gens.length = p.m + p.n := by
      rw [hgens]
      simp [hmem, hs, hn]
      omega
    have herr : auxiliary_problem p objective
        = .error "auxiliary variable is already among decision ones" := by
      simp only [auxiliary_problem, hao]
      rw [if_pos hlen]
    constructor
    · rw [herr]
      exact iff_of_true rfl hmem
    · intro h
      exact absurd hmem h
  · have hlen : ¬ p.ring_gens.length = p.m + p.n := by
      rw [hgens]
      simp [hmem, hs, hn]
      omega
    have hhead : p.ring_gens.headD "x0" = p.auxiliary_variable := by
      rw [hgens]
      simp [hmem]
    have hbody : ∃ q, auxiliary_problem p objective = .ok q ∧
        q.A = p.A.map (fun row => (-1 : ℚ) :: row) ∧
        q.auxiliary_variable = p.auxiliary_variable := by
      by_cases hv : p.style = some "vanderbei"
      · obtain ⟨q, hq, hqA, _, _, _, hqaux⟩ :=
          make_ok (p.A.map (fun row => (-1 : ℚ) :: row)) p.b
            ((-1 : ℚ) :: List.replicate p.n 0)
            (p.ring_gens.take (p.ring_gens.length - p.m)) "max"
            (some (.inr (p.ring_gens.drop (p.ring_gens.length - p.m))))
            (some (p.ring_gens.headD "x0")) p.style (some "auxiliary") ao
            (Or.inr hv)
        refine ⟨q, ?_, hqA, by rw [hqaux, Option.getD_some, hhead]⟩
        simp only [auxiliary_problem, hao]
        rw [if_neg hlen, if_pos hv, hq]
      · obtain ⟨q, hq, hqA, _, _, _, hqaux⟩ :=
          make_ok (p.A.map (fun row => (-1 : ℚ) :: row)) p.b
            ((-1 : ℚ) :: List.replicate p.n 0)
            (p.ring_gens.take (p.ring_gens.length - p.m)) "max"
            (some (.inr (p.ring_gens.drop (p.ring_gens.length - p.m))))
            (some (p.ring_gens.headD "x0")) none none ao (Or.inl rfl)
        refine ⟨q, ?_, hqA, by rw [hqaux, Option.getD_some, hhead]⟩
        simp only [auxiliary_problem, hao]
        rw [if_neg hlen, if_neg hv, hq]
    obtain ⟨q, hq, hqA, hqaux⟩ := hbody
    constructor
    · rw [hq]
      exact iff_of_false (by simp [Except.isOk, Except.toBool]) hmem
    · intro _
      refine ⟨q, hq, hqA, ?_, hqaux⟩
      intro row hrow
      rw [hqA] at hrow
      obtain ⟨r0, _, rfl⟩ := List.mem_map.mp hrow
      rfl

theorem auxiliary_problem_collision_check_witness :
    ((auxiliary_problem exampleStd none).isOk = false ↔
      exampleStd.auxiliary_variable ∈ exampleStd.x) ∧
    (exampleStd.auxiliary_variable ∉ exampleStd.x →
      ∃ q, auxiliary_problem exampleStd none = .ok q ∧
        q.A = exampleStd.A.map (fun row => (-1 : ℚ) :: row) ∧
        (∀ row ∈ q.A, row.headD 0 = -1) ∧
        q.auxiliary_variable = exampleStd.auxiliary_variable) :=
  auxiliary_problem_collision_check exampleStd none (Or.inl rfl) (by decide)
    rfl rfl

/-- Claim C4: deriving an ordinary dictionary from an auxiliary one
raises exactly when the auxiliary dictionary is infeasible or still has
the auxiliary variable basic; otherwise a fresh `LPDictionary` is
returned (with the partition of the supplied dictionary, which is left
untouched by the purely functional embedding). -/
theorem feasible_dictionary_checks (p : InteractiveLPProblemStandardForm)
    (d : LPDictionary)
    (hpart : (p.auxiliary_variable ∈ d.B ∨ p.auxiliary_variable ∈ d.N) ∧
      ¬(p.auxiliary_variable ∈ d.B ∧ p.auxiliary_variable ∈ d.N)) :
    ((feasible_dictionary p d).isOk = false ↔
      (p.auxiliary_variable ∈ d.B ∨ d.is_feasible = false)) ∧
    (p.auxiliary_variable ∉ d.B → d.is_feasible = true →
      (feasible_dictionary p d).toOption.map
          (fun d2 => (d2.B, d2.b, d2.problem_type_pda))
        = some (d.B, d.b, some "ordinary primal dictionary")) := by
  obtain ⟨hor, hnand⟩ := hpart
  by_cases hB : p.auxiliary_variable ∈ d.B
  · have hN : p.auxiliary_variable ∉ d.N := fun h => hnand ⟨hB, h⟩
    constructor
    · simp [feasible_dictionary, LPDictionary.nonbasic_variables, hN, hB,
        Except.isOk, Except.toBool]
    · intro h
      exact absurd hB h
  · have hN : p.auxiliary_variable ∈ d.N := hor.resolve_left hB
    by_cases hf : d.is_feasible
    · constructor
      · simp [feasible_dictionary, LPDictionary.nonbasic_variables, hN, hB,
          hf, Except.isOk, Except.toBool]
      · intro _ _
        simp [feasible_dictionary, LPDictionary.nonbasic_variables, hN, hf,
          Except.toOption]
    · constructor
      · simp [feasible_dictionary, LPDictionary.nonbasic_variables, hN, hB,
          hf, Except.isOk, Except.toBool]
      · intro _ hf2
        exact absurd hf2 hf

theorem feasible_dictionary_checks_witness :
    (((feasible_dictionary exampleStd exampleAuxDict).isOk = false) ↔
      (exampleStd.auxiliary_variable ∈ exampleAuxDict.B ∨
        exampleAuxDict.is_feasible = false)) ∧
    (exampleStd.auxiliary_variable ∉ exampleAuxDict.B →
      exampleAuxDict.is_feasible = true →
      (feasible_dictionary exampleStd exampleAuxDict).toOption.map
          (fun d2 => (d2.B, d2.b, d2.problem_type_pda))
        = some (exampleAuxDict.B, exampleAuxDict.b,
            some "ordinary primal dictionary")) :=
  feasible_dictionary_checks exampleStd exampleAuxDict
    ⟨Or.inr (by decide), by decide⟩

theorem listTranspose_getD (A : List (List ℚ)) (n i j : ℕ) (hj : j < n) :
    ((listTranspose A n).getD j []).getD i 0 = (A.getD i []).getD j 0 := by
  have houter : (listTranspose A n).getD j []
      = A.map (fun row => row.getD j 0) := by
    rw [listTranspose, List.getD_eq_getElem?_getD, List.getElem?_map,
      List.getElem?_range hj]
    rfl
  rw [houter]
  simp only [List.getD_eq_getElem?_getD, List.getElem?_map]
  cases h : A[i]? with
  | none => simp [h]
  | some row => simp [h]

/-- Claim C5: `dual` transposes `A`, takes the original `c` as the dual
right-hand side and the original `b` as the dual objective, flips the
optimization direction and maps constraint/variable types by the
LP-duality correspondence. -/
theorem dual_transpose_swap (p : InteractiveLPProblem)
    (y : Option (List String)) (o : String) :
    ∃ q, dual p y (some o) = .ok q ∧
      q.A = listTranspose p.A p.x.length ∧ q.b = p.c ∧ q.c = p.b ∧
      q.problem_type = (if p.problem_type = "max" then "min" else "max") ∧
      q.constraint_types
        = p.variable_types.map (dualConstraintType p.problem_type) ∧
      q.variable_types
        = p.constraint_types.map (dualVariableType p.problem_type) ∧
      ∀ i j, j < p.x.length →
        (q.A.getD j []).getD i 0 = (p.A.getD i []).getD j 0 := by
  refine ⟨_, rfl, rfl, rfl, rfl, rfl, rfl, rfl, ?_⟩
  intro i j hj
  exact listTranspose_getD p.A p.x.length i j hj

theorem dual_transpose_swap_witness :
    ∃ q, dual exampleProblemD none (some "w") = .ok q ∧
      q.A = listTranspose exampleProblemD.A exampleProblemD.x.length ∧
      q.b = exampleProblemD.c ∧ q.c = exampleProblemD.b ∧
      q.problem_type = (if exampleProblemD.problem_type = "max"
        then "min" else "max") ∧
      q.constraint_types = exampleProblemD.variable_types.map
        (dualConstraintType exampleProblemD.problem_type) ∧
      q.variable_types = exampleProblemD.constraint_types.map
        (dualVariableType exampleProblemD.problem_type) ∧
      ∀ i j, j < exampleProblemD.x.length →
        (q.A.getD j []).getD i 0 = (exampleProblemD.A.getD i []).getD j 0 :=
  dual_transpose_swap exampleProblemD none "w"

/-- Claim C6: under the vanderbei style with no explicit objective name,
the standard-form constructor chooses `"xi"` for dual and auxiliary
instances and `"zeta"` otherwise, and `dual` with a defaulted objective
sets the dual objective to `"xi"`. -/
theorem vanderbei_objective_symbols :
    (∀ (A : List (List ℚ)) (b c : List ℚ) (x : List String) (pt : String)
      (sv : Option (String ⊕ List String)) (av : Option String)
      (pda : Option String),
      (InteractiveLPProblemStandardForm.make A b c x pt sv av
          (some "vanderbei") pda none).toOption.map (fun q => q.objective)
        = some (some (if pda = some "dual" ∨ pda = some "auxiliary"
            then "xi" else "zeta"))) ∧
    (∀ (p : InteractiveLPProblem) (y : Option (List String)),
      (dual { p with style := some "vanderbei" } y none).toOption.map
        (fun q => q.objective) = some (some "xi")) := by
  constructor
  · intro A b c x pt sv av pda
    by_cases h : pda = some "dual" ∨ pda = some "auxiliary" <;>
      simp [InteractiveLPProblemStandardForm.make, validateStyle,
        defaultObjective, h, Except.toOption]
  · intro p y
    simp [dual, objectiveDispatch, Except.toOption]

/-- Claim C7: constructing a standard-form problem, or a dual with a
defaulted objective name, raises exactly for presentation styles other
than the default `None` and `"vanderbei"`. -/
theorem unrecognized_style_raises :
    (∀ (A : List (List ℚ)) (b c : List ℚ) (x : List String) (pt : String)
      (sv : Option (String ⊕ List String)) (av : Option String)
      (pda obj : Option String) (s : String),
      (InteractiveLPProblemStandardForm.make A b c x pt sv av
          (some s) pda obj).isOk = (if s = "vanderbei" then true else false)) ∧
    (∀ (A : List (List ℚ)) (b c : List ℚ) (x : List String) (pt : String)
      (sv : Option (String ⊕ List String)) (av : Option String)
      (pda obj : Option String),
      (InteractiveLPProblemStandardForm.make A b c x pt sv av
          none pda obj).isOk = true) ∧
    (∀ (p : InteractiveLPProblem) (y : Option (List String)) (s : String),
      (dual { p with style := some s } y none).isOk
        = (if s = "vanderbei" then true else false)) ∧
    (∀ (p : InteractiveLPProblem) (y : Option (List String)),
      (dual { p with style := none } y none).isOk = true) := by
  refine ⟨?_, ?_, ?_, ?_⟩
  · intro A b c x pt sv av pda obj s
    by_cases h : s = "vanderbei" <;>
      simp [InteractiveLPProblemStandardForm.make, validateStyle, h,
        Except.isOk, Except.toBool]
  · intro A b c x pt sv av pda obj
    rfl
  · intro p y s
    by_cases h : s = "vanderbei" <;>
      simp [dual, objectiveDispatch, h, Except.isOk, Except.toBool]
  · intro p y
    rfl

/-- Claim C8: the default basis of `revised_dictionary` is the slack
variables, except that when `b` has a negative entry the slack of the
first row attaining the minimum of `b` is replaced by the auxiliary
variable. -/
theorem revised_dictionary_default_basis
    (p : InteractiveLPProblemStandardForm) {bm : ℚ}
    (hmin : p.b.min? = some bm) :
    (0 ≤ bm → revised_dictionary_default_x_B p = p.slack_variables) ∧
    (bm < 0 →
      revised_dictionary_default_x_B p
        = p.slack_variables.set (p.b.indexOf bm) p.auxiliary_variable ∧
      p.b.getD (p.b.indexOf bm) 0 = bm ∧
      (∀ b2 ∈ p.b, bm ≤ b2) ∧
      (∀ k, k < p.b.indexOf bm → bm < p.b.getD k 0)) := by
  obtain ⟨hmem, hle⟩ := min?_spec hmin
  constructor
  · intro h0
    simp [revised_dictionary_default_x_B, hmin, not_lt.mpr h0]
  · intro hneg
    refine ⟨?_, getD_indexOf hmem, hle, ?_⟩
    · simp [revised_dictionary_default_x_B, hmin, hneg]
    · intro k hk
      have hne := getD_ne_of_lt_indexOf hk (0 : ℚ)
      have hkl : k < p.b.length :=
        lt_trans hk (List.indexOf_lt_length.mpr hmem)
      have hmem2 : p.b.getD k 0 ∈ p.b := by
        rw [List.getD_eq_getElem?_getD, List.getElem?_eq_getElem hkl]
        exact List.getElem_mem hkl
      exact lt_of_le_of_ne (hle _ hmem2) (Ne.symm hne)

theorem revised_dictionary_default_basis_witness :
    (0 ≤ (-3 : ℚ) →
      revised_dictionary_default_x_B exampleStdNeg
        = exampleStdNeg.slack_variables) ∧
    ((-3 : ℚ) < 0 →
      revised_dictionary_default_x_B exampleStdNeg
        = exampleStdNeg.slack_variables.set
            (exampleStdNeg.b.indexOf (-3)) exampleStdNeg.auxiliary_variable ∧
      exampleStdNeg.b.getD (exampleStdNeg.b.indexOf (-3)) 0 = -3 ∧
      (∀ b2 ∈ exampleStdNeg.b, (-3 : ℚ) ≤ b2) ∧
      (∀ k, k < exampleStdNeg.b.indexOf (-3) →
        (-3 : ℚ) < exampleStdNeg.b.getD k 0)) :=
  revised_dictionary_default_basis exampleStdNeg
    (by simp [exampleStdNeg, exampleStd, List.min?]; norm_num [min_def])

/-- Claim C9, counterexample: the style tag does not only influence
names.  On the same concrete standard-form data, `revised_dictionary`
raises under the default style and succeeds under the vanderbei style,
so revised-dictionary construction has no numeric result at all under
the default style. -/
theorem style_not_only_naming_cex :
    exampleStdV = { exampleStd with style := some "vanderbei" } ∧
    (revised_dictionary exampleStd none).isOk = false ∧
    (revised_dictionary exampleStdV none).isOk = true := by
  refine ⟨rfl, rfl, ?_⟩
  rfl

/-- Claim C9, amended: apart from revised-dictionary construction (which
requires the vanderbei style), the numeric outputs of standardization,
dual construction, explicit dictionary construction and the default
revised basis are identical under the default and vanderbei styles. -/
theorem style_numeric_invariance (p : InteractiveLPProblem)
    (q : InteractiveLPProblemStandardForm) (y : Option (List String)) :
    standardize_data { p with style := none }
      = standardize_data { p with style := some "vanderbei" } ∧
    ((standard_form { p with style := none }).2.toOption.map
        (fun r => (r.A, r.b, r.c))
      = (standard_form { p with style := some "vanderbei" }).2.toOption.map
        (fun r => (r.A, r.b, r.c))) ∧
    ((dual { p with style := none } y none).toOption.map
        (fun r => (r.A, r.b, r.c))
      = (dual { p with style := some "vanderbei" } y none).toOption.map
        (fun r => (r.A, r.b, r.c))) ∧
    ((initial_dictionary { q with style := none }).A,
        (initial_dictionary { q with style := none }).b,
        (initial_dictionary { q with style := none }).c,
        (initial_dictionary { q with style := none }).v,
        (initial_dictionary { q with style := none }).B,
        (initial_dictionary { q with style := none }).N)
      = ((initial_dictionary { q with style := some "vanderbei" }).A,
        (initial_dictionary { q with style := some "vanderbei" }).b,
        (initial_dictionary { q with style := some "vanderbei" }).c,
        (initial_dictionary { q with style := some "vanderbei" }).v,
        (initial_dictionary { q with style := some "vanderbei" }).B,
        (initial_dictionary { q with style := some "vanderbei" }).N) ∧
    revised_dictionary_default_x_B { q with style := none }
      = revised_dictionary_default_x_B { q with style := some "vanderbei" } :=
  ⟨rfl, rfl, rfl, rfl, rfl⟩

/-- Claim C10: constructing an `LPRevisedDictionary` for an auxiliary
problem (one whose auxiliary variable is its first decision variable)
always raises, whatever the remaining arguments. -/
theorem revised_dictionary_rejects_auxiliary_problem
    (problem : InteractiveLPProblemStandardForm) (x_B : List String)
    (style problem_type_pda objective : Option String)
    (haux : problem.x.headD "" = problem.auxiliary_variable) :
    ∃ msg, LPRevisedDictionary.make problem x_B style problem_type_pda
      objective = .error msg := by
  by_cases hst : style = some "vanderbei"
  · refine ⟨"revised dictionaries should not be constructed for auxiliary problems", ?_⟩
    simp only [LPRevisedDictionary.make]
    rw [if_neg (by simp [hst]), if_pos haux]
  · refine ⟨"For educational purposes, style must be initialized to vanderbei", ?_⟩
    simp only [LPRevisedDictionary.make]
    rw [if_pos hst]

theorem revised_dictionary_rejects_auxiliary_problem_witness :
    exampleAux.x.headD "" = exampleAux.auxiliary_variable ∧
    ∃ msg, LPRevisedDictionary.make exampleAux ["x2"] (some "vanderbei")
      none none = .error msg :=
  ⟨rfl, revised_dictionary_rejects_auxiliary_problem exampleAux ["x2"]
    (some "vanderbei") none none rfl⟩

end ISM
